import Mathlib

/-!
Shallow embedding of the Billing component (`BillingService` in the source) of the
distributed-systems restaurant repository, together with proofs about its operations:
delivery registration, bill generation, payment settlement, payment options and the
menu-retry backoff schedule.

Conventions of the embedding:
* TypeScript numbers used as identifiers become `Nat`; prices and sums become `ℚ`.
* The mutable fields of the `BillingService` class become an explicit state record
  that every operation threads through.
* An unhandled missing-value access in the source (reading a property of `undefined`
  after a failed `find`/`findIndex`) is a crash of the service; a crashing operation
  is embedded as returning `none`, and a successful one as `some` of its result
  together with the post-state.
* In-place mutation of the object returned by `Array.prototype.find` becomes
  `updateFirst`, which rewrites the first list element satisfying a predicate.
-/

namespace Billing

/-- A menu item: an item id and its price (source `Menu` entries `{id, price}`). -/
structure MenuItem where
  id : Nat
  price : ℚ
deriving Repr, DecidableEq

/-- The cached menu: one item list per category, as fetched by `getMenu`. -/
structure Menu where
  food : List MenuItem
  drinks : List MenuItem
deriving Repr, DecidableEq

/-- One order line: an order id with the delivered food and drink ids.
Ids may repeat (multiset semantics). -/
structure OrderLine where
  order : Nat
  food : List Nat
  drinks : List Nat
deriving Repr, DecidableEq

/-- A ledger entry (`GuestOrders` in the source): the delivered-but-unpaid
order lines of one guest. -/
structure GuestOrders where
  guest : Nat
  orders : List OrderLine
deriving Repr, DecidableEq

/-- An open bill: bill id, guest, order lines and the computed total. -/
structure Bill where
  bill : Nat
  guest : Nat
  orders : List OrderLine
  totalSum : ℚ
deriving Repr, DecidableEq

/-- The guest-facing view returned by `generateBill`: flattened id lists. -/
structure GuestBill where
  bill : Nat
  orderedFood : List Nat
  orderedDrinks : List Nat
  totalSum : ℚ
deriving Repr, DecidableEq

/-- One settled order line inside a receipt. -/
structure PaidOrder where
  order : Nat
  paidFood : List Nat
  paidDrinks : List Nat
deriving Repr, DecidableEq

/-- The receipt returned by `registerPayment`. -/
structure PaidBill where
  bill : Nat
  paidOrders : List PaidOrder
  totalSum : ℚ
deriving Repr, DecidableEq

/-- The payload of `registerDeliveredItems` (fields destructured by the source). -/
structure ItemRegistration where
  guest : Nat
  order : Nat
  food : List Nat
  drinks : List Nat
deriving Repr, DecidableEq

/-- The payment methods of the source enum `PAYMENT_METHOD`. -/
inductive PAYMENT_METHOD where
  | Cash
  | DebitCard
  | CreditCard
deriving Repr, DecidableEq

/-- The mutable state of the `BillingService` class: the open bills, the
per-guest delivery ledger, the cached menu and the bill id counter. -/
structure BillingService where
  bills : List Bill
  guestOrders : List GuestOrders
  menu : Menu
  billIdCounter : Nat
deriving Repr, DecidableEq

/-- Rewrite the first element of a list satisfying `p` using `f`; the embedding of
the source's pattern of mutating the object found by `Array.prototype.find`
(or of `splice(index, 1, replacement)` at a `findIndex` position). -/
def updateFirst (p : α → Bool) (f : α → α) : List α → List α
  | [] => []
  | x :: xs => if p x then f x :: xs else x :: updateFirst p f xs

/-! ### Menu retry schedule (`getMenu` / `handleGetMenuErrors`) -/

/-- The constant `MAX_RETRY_COUNT` from the source. -/
def MAX_RETRY_COUNT : Nat := 5

/-- Fibonacci numbers with `fibNum 0 = fibNum 1 = 1`. -/
def fibNum : Nat → Nat
  | 0 => 1
  | 1 => 1
  | n + 2 => fibNum n + fibNum (n + 1)

/-- Modelled from the spec: `getFibonacciSequence` lives in `utils.ts`, which is not
among the provided source files; the spec says to precompute a Fibonacci sequence of
length 5, e.g. `1, 1, 2, 3, 5`. -/
def getFibonacciSequence (n : Nat) : List Nat :=
  (List.range n).map fibNum

/-- The precomputed sequence stored in the `fibonacciSeq` field of the service. -/
def fibonacciSeq : List Nat := getFibonacciSequence MAX_RETRY_COUNT

/-- One failure step of `handleGetMenuErrors`, as a function from the current
`retryCounter` to the wait in milliseconds and the next `retryCounter`.
When the counter is positive the wait is `fibonacciSeq[MAX_RETRY_COUNT - retryCounter] * 1000`;
otherwise the wait is `60 * 1000` and the counter is reset to `MAX_RETRY_COUNT`.
The source then executes `this.retryCounter--` on both paths, which the pair's
second component already includes. -/
def handleGetMenuErrors (retryCounter : Nat) : Nat × Nat :=
  if retryCounter > 0 then
    (fibonacciSeq.getD (MAX_RETRY_COUNT - retryCounter) 0 * 1000, retryCounter - 1)
  else
    (60 * 1000, MAX_RETRY_COUNT - 1)

/-- The waits produced by `n` consecutive failures starting from counter `rc`. -/
def retryWaitsAux : Nat → Nat → List Nat
  | 0, _ => []
  | n + 1, rc => (handleGetMenuErrors rc).1 :: retryWaitsAux n (handleGetMenuErrors rc).2

/-- The waits (in ms) before each of the first `n` consecutive retries, starting
from the initial `retryCounter = MAX_RETRY_COUNT` of a fresh service. -/
def retryWaits (n : Nat) : List Nat := retryWaitsAux n MAX_RETRY_COUNT

/-- The schedule predicted by the specification claim: cycles of six waits,
`fib(1)..fib(5)` seconds then a 60 s cooldown, repeating identically. -/
def claimWaits (n : Nat) : List Nat :=
  (List.range n).map fun i => if i % 6 = 5 then 60000 else fibNum (i % 6) * 1000

/-! ### registerDeliveredItems -/

/-- The body applied to an existing ledger entry of the registering guest:
append onto an existing order line with the same order id, or push a new line. -/
def addDeliveryToEntry (reg : ItemRegistration) (gd : GuestOrders) : GuestOrders :=
  match gd.orders.find? fun o => o.order == reg.order with
  | some _ =>
    { gd with
      orders := updateFirst (fun o => o.order == reg.order)
        (fun o => { o with food := o.food ++ reg.food, drinks := o.drinks ++ reg.drinks })
        gd.orders }
  | none =>
    { gd with orders := gd.orders ++ [{ order := reg.order, food := reg.food, drinks := reg.drinks }] }

/-- The operation `registerDeliveredItems`: create a ledger entry for a new guest, or merge
the delivery into the guest's existing entry. -/
def registerDeliveredItems (st : BillingService) (reg : ItemRegistration) : BillingService :=
  match st.guestOrders.find? fun items => items.guest == reg.guest with
  | some _ =>
    { st with
      guestOrders := updateFirst (fun items => items.guest == reg.guest)
        (addDeliveryToEntry reg) st.guestOrders }
  | none =>
    { st with
      guestOrders := st.guestOrders ++
        [{ guest := reg.guest, orders := [{ order := reg.order, food := reg.food, drinks := reg.drinks }] }] }

/-! ### generateBill -/

/-- The `findIndex`-based lookup of the open bill of a guest. -/
def findBillForGuest (st : BillingService) (guest : Nat) : Option Bill :=
  st.bills.find? fun bill => bill.guest == guest

/-- The regeneration base of `generateBill`: a copy of the existing bill's order
lines with `totalSum` reset to `0` (the source's deep copy is the identity in a
pure embedding), or a fresh bill with the next bill id; paired with the
`billIdCounter` after the call. -/
def billBase (st : BillingService) (guestDelivery : GuestOrders) : Bill × Nat :=
  match findBillForGuest st guestDelivery.guest with
  | some b => ({ bill := b.bill, guest := b.guest, orders := b.orders, totalSum := 0 }, st.billIdCounter)
  | none =>
    ({ bill := st.billIdCounter, guest := guestDelivery.guest, orders := [], totalSum := 0 },
      st.billIdCounter + 1)

/-- One step of `addFoodOrderToBill`: overwrite the bill line with the same order
id with the ledger line's current lists, or push a new line. -/
def addOneOrder (billOrders : List OrderLine) (o : OrderLine) : List OrderLine :=
  match billOrders.find? fun billOrder => billOrder.order == o.order with
  | some _ =>
    updateFirst (fun billOrder => billOrder.order == o.order)
      (fun billOrder => { billOrder with food := o.food, drinks := o.drinks }) billOrders
  | none => billOrders ++ [{ order := o.order, food := o.food, drinks := o.drinks }]

/-- The helper `addFoodOrderToBill`: fold every ledger order line into the bill's lines. -/
def addFoodOrderToBill (guestDelivery : GuestOrders) (billOrders : List OrderLine) : List OrderLine :=
  guestDelivery.orders.foldl addOneOrder billOrders

/-- Price accumulation step of `calculateTotalSum`: a failed menu lookup is the
source's crash on `undefined.price`, embedded as `none`, and `none` is sticky. -/
def addPrice (items : List MenuItem) (acc : Option ℚ) (id : Nat) : Option ℚ :=
  match acc with
  | none => none
  | some a =>
    match items.find? fun it => it.id == id with
    | none => none
    | some it => some (a + it.price)

/-- Sum the prices of a list of ids against one menu category. -/
def sumIds (items : List MenuItem) (acc : Option ℚ) (ids : List Nat) : Option ℚ :=
  ids.foldl (addPrice items) acc

/-- The per-order-line body of `calculateTotalSum`: add the prices of the line's
drink ids, then of its food ids. -/
def addOrderPrices (menu : Menu) (acc : Option ℚ) (o : OrderLine) : Option ℚ :=
  sumIds menu.food (sumIds menu.drinks acc o.drinks) o.food

/-- The helper `calculateTotalSum`: for every order line add the prices of all its drink ids
and then of all its food ids, starting from `0`. -/
def calculateTotalSum (menu : Menu) (orders : List OrderLine) : Option ℚ :=
  orders.foldl (addOrderPrices menu) (some 0)

/-- The final store step of `generateBill`: `splice(billIndex, 1, newBill)` when a
bill for the guest existed, `push(newBill)` otherwise. -/
def storeBill (st : BillingService) (guest : Nat) (newBill : Bill) : List Bill :=
  match findBillForGuest st guest with
  | some _ => updateFirst (fun bill => bill.guest == guest) (fun _ => newBill) st.bills
  | none => st.bills ++ [newBill]

/-- The operation `generateBill`: rebuild the guest's bill from the supplied ledger entry,
recompute the total, store the bill (replacing an existing one for the guest or
pushing a new one) and return the flattened guest view. `none` is the source's
crash when a price lookup misses (or when the menu has not loaded). -/
def generateBill (st : BillingService) (guestDelivery : GuestOrders) :
    Option (GuestBill × BillingService) :=
  let base := (billBase st guestDelivery).1
  let ctr := (billBase st guestDelivery).2
  let newOrders := addFoodOrderToBill guestDelivery base.orders
  match calculateTotalSum st.menu newOrders with
  | none => none
  | some total =>
    let newBill : Bill :=
      { bill := base.bill, guest := base.guest, orders := newOrders, totalSum := total }
    some
      ( { bill := newBill.bill
          orderedFood := (newOrders.map fun o => o.food).flatten
          orderedDrinks := (newOrders.map fun o => o.drinks).flatten
          totalSum := total },
        { st with bills := storeBill st guestDelivery.guest newBill, billIdCounter := ctr } )

/-! ### getPaymentOption -/

/-- The operation `getPaymentOption`: always `Cash`; from an amount of 20 also `DebitCard`
and `CreditCard`, in that order. -/
def getPaymentOption (amount : ℚ) : List PAYMENT_METHOD :=
  if amount < 20 then [PAYMENT_METHOD.Cash]
  else [PAYMENT_METHOD.Cash, PAYMENT_METHOD.DebitCard, PAYMENT_METHOD.CreditCard]

/-! ### registerPayment -/

/-- Remove the first occurrence of `id`, the embedding of
`splice(findIndex(...), 1)` on a list that contains `id`. -/
def spliceFirst (id : Nat) : List Nat → List Nat
  | [] => []
  | x :: xs => if x == id then xs else x :: spliceFirst id xs

/-- For every billed id, remove one matching occurrence from the ledger id list
when one is present (the `includes` guard of the source). -/
def removeBilledIds (billedIds ledgerIds : List Nat) : List Nat :=
  billedIds.foldl (fun acc id => if acc.contains id then spliceFirst id acc else acc) ledgerIds

/-- The settlement of one ledger order line inside
`removeBillItemsFromDeliveredItems`: when the bill has a line with the same
order id, subtract its billed drink and food ids; otherwise leave it alone. -/
def settleLine (billOrders : List OrderLine) (o : OrderLine) : OrderLine :=
  match billOrders.find? fun billOrder => billOrder.order == o.order with
  | some billOrder =>
    { o with
      drinks := removeBilledIds billOrder.drinks o.drinks
      food := removeBilledIds billOrder.food o.food }
  | none => o

/-- The receipt lines built by `registerPayment` before settlement. -/
def paidOrdersOf (bill : Bill) : List PaidOrder :=
  bill.orders.map fun o => { order := o.order, paidFood := o.food, paidDrinks := o.drinks }

/-- The operation `registerPayment`: look up the bill, build the receipt, subtract the billed
ids from the guest's ledger entry, drop emptied order lines, delete the bill.
The two `none` branches embed the source's crashes when the bill id is unknown
(`bill.orders` on `undefined`) or when the guest has no ledger entry
(`guestOrders[-1].orders`). -/
def registerPayment (st : BillingService) (billId : Nat) :
    Option (PaidBill × BillingService) :=
  match st.bills.find? fun bill => bill.bill == billId with
  | none => none
  | some bill =>
    let paidBill : PaidBill :=
      { bill := billId, paidOrders := paidOrdersOf bill, totalSum := bill.totalSum }
    match st.guestOrders.find? fun items => items.guest == bill.guest with
    | none => none
    | some _ =>
      let guestOrders' :=
        updateFirst (fun items => items.guest == bill.guest)
          (fun gd =>
            { gd with
              orders := ((gd.orders.map (settleLine bill.orders)).filter
                fun o => !o.food.isEmpty || !o.drinks.isEmpty) })
          st.guestOrders
      let bills' := st.bills.eraseP fun bill => bill.bill == billId
      some (paidBill, { st with bills := bills', guestOrders := guestOrders' })

/-! ### Specification-side total, for the conservation statement -/

/-- The price of an id in one menu category, defaulting to `0`; used only to
state what the total must equal when every lookup succeeds. -/
def priceOf (items : List MenuItem) (id : Nat) : ℚ :=
  ((items.find? fun it => it.id == id).map fun it => it.price).getD 0

/-- The specification-side sum of the prices of a list of ids. -/
def specSumIds (items : List MenuItem) (ids : List Nat) : ℚ :=
  (ids.map (priceOf items)).sum

/-- The specification-side total of a bill: the sum of the menu prices of every
drink id and every food id across all order lines. -/
def specTotal (menu : Menu) (orders : List OrderLine) : ℚ :=
  (orders.map fun o => specSumIds menu.drinks o.drinks + specSumIds menu.food o.food).sum

/-! ### State invariant -/

/-- The state invariant of the service: at most one ledger entry per guest id,
at most one order line per order id inside a ledger entry, and at most one open
bill per guest id. -/
def InvBilling (st : BillingService) : Prop :=
  (st.guestOrders.map fun e => e.guest).Nodup ∧
    (∀ e ∈ st.guestOrders, (e.orders.map fun o => o.order).Nodup) ∧
    (st.bills.map fun b => b.guest).Nodup

/-! ### Concrete demonstration states -/

/-- A small concrete menu: food 101 costs 5, food 102 costs 7, drink 201 costs 3. -/
def menu0 : Menu :=
  { food := [{ id := 101, price := 5 }, { id := 102, price := 7 }]
    drinks := [{ id := 201, price := 3 }] }

/-- A fresh service holding `menu0`. -/
def st0 : BillingService :=
  { bills := [], guestOrders := [], menu := menu0, billIdCounter := 1 }

/-- The delivery of the end-to-end scenario: guest 1, order 1, food 101 and 102,
drink 201. -/
def demoDelivery : ItemRegistration :=
  { guest := 1, order := 1, food := [101, 102], drinks := [201] }

/-- The ledger entry created by `demoDelivery`. -/
def demoEntry : GuestOrders :=
  { guest := 1, orders := [{ order := 1, food := [101, 102], drinks := [201] }] }

/-- The state after registering `demoDelivery` on a fresh service. -/
def demoStA : BillingService := registerDeliveredItems st0 demoDelivery

/-- The guest bill produced for `demoEntry`. -/
def demoGuestBill : GuestBill :=
  { bill := 1, orderedFood := [101, 102], orderedDrinks := [201], totalSum := 15 }

/-- The state after generating the bill for `demoEntry`. -/
def demoStB : BillingService :=
  { bills := [{ bill := 1, guest := 1, orders := [{ order := 1, food := [101, 102], drinks := [201] }], totalSum := 15 }]
    guestOrders := [demoEntry]
    menu := menu0
    billIdCounter := 2 }

/-- The receipt returned when bill 1 is paid in `demoStB`. -/
def demoPaidBill : PaidBill :=
  { bill := 1
    paidOrders := [{ order := 1, paidFood := [101, 102], paidDrinks := [201] }]
    totalSum := 15 }

/-- The state after paying bill 1: the bill is gone and guest 1's ledger entry
has no order lines left. -/
def demoStC : BillingService :=
  { bills := [], guestOrders := [{ guest := 1, orders := [] }], menu := menu0, billIdCounter := 2 }

/-- A bill for guest 1 covering one food 101, one food 102 and one drink 201. -/
def c1Bill : Bill :=
  { bill := 1, guest := 1, orders := [{ order := 1, food := [101, 102], drinks := [201] }],
    totalSum := 15 }

/-- A ledger entry for guest 1 holding a duplicate food id 101 beyond `c1Bill`. -/
def c1Entry : GuestOrders :=
  { guest := 1, orders := [{ order := 1, food := [101, 101, 102], drinks := [201] }] }

/-- A state holding `c1Bill` and `c1Entry`. -/
def c1State : BillingService :=
  { bills := [c1Bill], guestOrders := [c1Entry], menu := menu0, billIdCounter := 2 }

/-- The receipt for paying `c1Bill`. -/
def c1Paid : PaidBill :=
  { bill := 1, paidOrders := [{ order := 1, paidFood := [101, 102], paidDrinks := [201] }],
    totalSum := 15 }

/-- The state after paying `c1Bill`: the un-billed duplicate food id 101 survives. -/
def c1After : BillingService :=
  { bills := [], guestOrders := [{ guest := 1, orders := [{ order := 1, food := [101], drinks := [] }] }],
    menu := menu0, billIdCounter := 2 }

/-- A ledger entry holding a food id with no entry in `menu0`. -/
def c5Entry : GuestOrders :=
  { guest := 1, orders := [{ order := 1, food := [999], drinks := [] }] }

/-- A state holding a bill for guest 1 while guest 1 has no ledger entry. -/
def c4Orphan : BillingService :=
  { bills := [c1Bill], guestOrders := [], menu := menu0, billIdCounter := 2 }

/-- A state whose ledger holds guest 2 with order 5 and one food 101. -/
def c6State : BillingService :=
  { bills := [], guestOrders := [{ guest := 2, orders := [{ order := 5, food := [101], drinks := [] }] }],
    menu := menu0, billIdCounter := 1 }

/-- The re-delivery of one more food 101 for guest 2, order 5. -/
def c6Reg : ItemRegistration := { guest := 2, order := 5, food := [101], drinks := [] }

/-- A bill for guest 1 whose only line has order id 9 (absent from `c9Entry`). -/
def c9Bill : Bill :=
  { bill := 1, guest := 1, orders := [{ order := 9, food := [101], drinks := [] }], totalSum := 5 }

/-- A state holding `c9Bill` as guest 1's open bill. -/
def c9State : BillingService :=
  { bills := [c9Bill], guestOrders := [], menu := menu0, billIdCounter := 2 }

/-- A ledger entry for guest 1 mentioning only order id 2. -/
def c9Entry : GuestOrders :=
  { guest := 1, orders := [{ order := 2, food := [102], drinks := [] }] }

/-- The guest bill regenerated from `c9State` and `c9Entry`: the stale line of
order 9 survives and its food id 101 still contributes to the total. -/
def c9GuestBill : GuestBill :=
  { bill := 1, orderedFood := [101, 102], orderedDrinks := [], totalSum := 12 }

/-- The regenerated bill stored by the `c9` scenario. -/
def c9Regenerated : Bill :=
  { bill := 1
    guest := 1
    orders := [{ order := 9, food := [101], drinks := [] }, { order := 2, food := [102], drinks := [] }]
    totalSum := 12 }

/-- The state after the `c9` regeneration. -/
def c9After : BillingService :=
  { bills := [c9Regenerated], guestOrders := [], menu := menu0, billIdCounter := 2 }

/-! ### Lemmas about `updateFirst` -/

theorem updateFirst_find?_self {p : α → Bool} {f : α → α} {l : List α} {x : α}
    (hx : l.find? p = some x) (hfx : p (f x) = true) :
    (updateFirst p f l).find? p = some (f x) := by
  induction l with
  | nil => simp at hx
  | cons y ys ih =>
    by_cases hp : p y
    · simp [List.find?_cons, hp] at hx
      subst hx
      simp [updateFirst, hp, List.find?_cons, hfx]
    · simp [List.find?_cons, hp] at hx ⊢
      simp [updateFirst, hp, List.find?_cons, ih hx]

theorem updateFirst_find?_other {p q : α → Bool} {f : α → α} {l : List α}
    (hpq : ∀ x, p x = true → q x = false) (hf : ∀ x, q (f x) = q x) :
    (updateFirst p f l).find? q = l.find? q := by
  induction l with
  | nil => rfl
  | cons y ys ih =>
    by_cases hp : p y
    · have hq : q y = false := hpq y hp
      simp [updateFirst, hp, List.find?_cons, hf y, hq]
    · by_cases hq : q y
      · simp [updateFirst, hp, List.find?_cons, hq]
      · simp only [Bool.not_eq_true] at hq
        simp [updateFirst, hp, List.find?_cons, hq, ih]

theorem updateFirst_map {p : α → Bool} {f : α → α} {g : α → β} {l : List α}
    (hg : ∀ x, p x = true → g (f x) = g x) :
    (updateFirst p f l).map g = l.map g := by
  induction l with
  | nil => rfl
  | cons y ys ih =>
    by_cases hp : p y
    · simp [updateFirst, hp, hg y hp]
    · simp [updateFirst, hp, ih]

theorem mem_updateFirst {p : α → Bool} {f : α → α} {l : List α} {a : α}
    (ha : a ∈ updateFirst p f l) : a ∈ l ∨ ∃ b, b ∈ l ∧ p b = true ∧ a = f b := by
  induction l with
  | nil => simp [updateFirst] at ha
  | cons y ys ih =>
    by_cases hp : p y
    · simp only [updateFirst, if_pos hp, List.mem_cons] at ha
      rcases ha with ha | ha
      · exact Or.inr ⟨y, List.mem_cons_self y ys, hp, ha⟩
      · exact Or.inl (List.mem_cons_of_mem y ha)
    · simp only [updateFirst, if_neg hp, List.mem_cons] at ha
      rcases ha with ha | ha
      · exact Or.inl (ha ▸ List.mem_cons_self y ys)
      · rcases ih ha with h | ⟨b, hb, hpb, hab⟩
        · exact Or.inl (List.mem_cons_of_mem y h)
        · exact Or.inr ⟨b, List.mem_cons_of_mem y hb, hpb, hab⟩

theorem mem_updateFirst_of_neg {p : α → Bool} {f : α → α} {l : List α} {a : α}
    (ha : a ∈ l) (hpa : p a = false) : a ∈ updateFirst p f l := by
  induction l with
  | nil => simp at ha
  | cons y ys ih =>
    rcases List.mem_cons.mp ha with rfl | hmem
    · have : ¬ p a = true := by simp [hpa]
      simp [updateFirst, if_neg this]
    · by_cases hp : p y
      · simp [updateFirst, hp, List.mem_cons, hmem]
      · simp only [updateFirst, if_neg hp, List.mem_cons]
        exact Or.inr (ih hmem)

theorem updateFirst_eq_self {p : α → Bool} {f : α → α} {l : List α} {x : α}
    (hx : l.find? p = some x) (hfx : f x = x) : updateFirst p f l = l := by
  induction l with
  | nil => rfl
  | cons y ys ih =>
    by_cases hp : p y
    · simp [List.find?_cons, hp] at hx
      subst hx
      simp [updateFirst, hp, hfx]
    · simp [List.find?_cons, hp] at hx
      simp [updateFirst, hp, ih hx]

/-! ### Lemmas about the multiset subtraction of `registerPayment` -/

theorem spliceFirst_eq_erase (id : Nat) (l : List Nat) :
    spliceFirst id l = l.erase id := by
  induction l with
  | nil => rfl
  | cons x xs ih => simp [spliceFirst, List.erase_cons, ih]

theorem removeBilledIds_eq_diff (billed ledger : List Nat) :
    removeBilledIds billed ledger = ledger.diff billed := by
  induction billed generalizing ledger with
  | nil => rfl
  | cons b bs ih =>
    show removeBilledIds bs (if ledger.contains b then spliceFirst b ledger else ledger) = _
    by_cases hmem : b ∈ ledger
    · have hc : ledger.contains b = true := by simpa using hmem
      simp [hc, spliceFirst_eq_erase, hmem, ih, List.diff_cons]
    · have hc : ledger.contains b = false := by simpa using hmem
      simp [hc, hmem, ih, List.diff_cons, List.erase_of_not_mem hmem]

theorem count_list_diff (id : Nat) (l bs : List Nat) :
    (l.diff bs).count id = l.count id - bs.count id := by
  induction bs generalizing l with
  | nil => simp
  | cons b bs ih =>
    rw [List.diff_cons, ih, List.count_erase, List.count_cons]
    by_cases hb : b = id
    · simp [hb, Nat.sub_sub, Nat.add_comm]
    · have h1 : (b == id) = false := by simpa using hb
      have h2 : (id == b) = false := by simpa using fun h => hb h.symm
      simp [h1, h2]

theorem settleLine_order (billOrders : List OrderLine) (o : OrderLine) :
    (settleLine billOrders o).order = o.order := by
  unfold settleLine
  cases billOrders.find? fun billOrder => billOrder.order == o.order <;> rfl

/-! ### Lemmas about `calculateTotalSum` -/

theorem sumIds_none (items : List MenuItem) (ids : List Nat) :
    sumIds items none ids = none := by
  induction ids with
  | nil => rfl
  | cons id ids ih =>
    show sumIds items (addPrice items none id) ids = none
    simpa [addPrice] using ih

theorem sumIds_some {items : List MenuItem} {ids : List Nat} {a s : ℚ}
    (h : sumIds items (some a) ids = some s) : s = a + specSumIds items ids := by
  induction ids generalizing a with
  | nil =>
    simp only [sumIds, List.foldl_nil, Option.some.injEq] at h
    simp [specSumIds, h]
  | cons id ids ih =>
    rw [show sumIds items (some a) (id :: ids) = sumIds items (addPrice items (some a) id) ids
      from rfl] at h
    cases hf : items.find? fun it => it.id == id with
    | none =>
      rw [show addPrice items (some a) id = none by simp [addPrice, hf], sumIds_none] at h
      exact absurd h (by simp)
    | some it =>
      rw [show addPrice items (some a) id = some (a + it.price) by simp [addPrice, hf]] at h
      have hs := ih h
      have hpr : priceOf items id = it.price := by simp [priceOf, hf]
      simp [hs, specSumIds, hpr, List.map_cons, List.sum_cons, add_assoc]

theorem foldl_addOrderPrices_none (menu : Menu) (orders : List OrderLine) :
    orders.foldl (addOrderPrices menu) none = none := by
  induction orders with
  | nil => rfl
  | cons o os ih =>
    show os.foldl (addOrderPrices menu) (addOrderPrices menu none o) = none
    simpa [addOrderPrices, sumIds_none] using ih

theorem foldl_addOrderPrices_some {menu : Menu} {orders : List OrderLine} {a s : ℚ}
    (h : orders.foldl (addOrderPrices menu) (some a) = some s) :
    s = a + specTotal menu orders := by
  induction orders generalizing a with
  | nil =>
    simp only [List.foldl_nil, Option.some.injEq] at h
    simp [specTotal, h]
  | cons o os ih =>
    rw [List.foldl_cons] at h
    cases hd : sumIds menu.drinks (some a) o.drinks with
    | none =>
      rw [show addOrderPrices menu (some a) o = none by
        simp [addOrderPrices, hd, sumIds_none], foldl_addOrderPrices_none] at h
      exact absurd h (by simp)
    | some a1 =>
      cases hfd : sumIds menu.food (some a1) o.food with
      | none =>
        rw [show addOrderPrices menu (some a) o = none by
          simp [addOrderPrices, hd, hfd], foldl_addOrderPrices_none] at h
        exact absurd h (by simp)
      | some a2 =>
        rw [show addOrderPrices menu (some a) o = some a2 by
          simp [addOrderPrices, hd, hfd]] at h
        have h2 := ih h
        have hd' := sumIds_some hd
        have hfd' := sumIds_some hfd
        subst hd' hfd'
        simp [h2, specTotal, List.map_cons, List.sum_cons]
        ring

theorem calculateTotalSum_some {menu : Menu} {orders : List OrderLine} {s : ℚ}
    (h : calculateTotalSum menu orders = some s) : s = specTotal menu orders := by
  have h' : orders.foldl (addOrderPrices menu) (some (0 : ℚ)) = some s := h
  simpa using foldl_addOrderPrices_some h'

theorem settleLine_counts {billOrders : List OrderLine} {o bo : OrderLine}
    (hbo : billOrders.find? (fun billOrder => billOrder.order == o.order) = some bo) :
    (∀ id, (settleLine billOrders o).food.count id = o.food.count id - bo.food.count id) ∧
      (∀ id, (settleLine billOrders o).drinks.count id = o.drinks.count id - bo.drinks.count id) := by
  unfold settleLine
  rw [hbo]
  constructor <;> intro id <;>
    simp [removeBilledIds_eq_diff, count_list_diff]

/-! ### Shape of a successful `generateBill` -/

theorem billBase_guest (st : BillingService) (g : GuestOrders) :
    (billBase st g).1.guest = g.guest := by
  unfold billBase
  cases hfb : findBillForGuest st g.guest with
  | some b =>
    show b.guest = g.guest
    have hfind : st.bills.find? (fun bill => bill.guest == g.guest) = some b := hfb
    simpa using List.find?_some hfind
  | none => rfl

theorem find?_storeBill {st : BillingService} {guest : Nat} {newBill : Bill}
    (hg : newBill.guest = guest) :
    (storeBill st guest newBill).find? (fun bill => bill.guest == guest) = some newBill := by
  unfold storeBill
  cases hfb : findBillForGuest st guest with
  | some b =>
    show (updateFirst (fun bill => bill.guest == guest) (fun _ => newBill) st.bills).find?
      (fun bill => bill.guest == guest) = some newBill
    have hfind : st.bills.find? (fun bill => bill.guest == guest) = some b := hfb
    exact updateFirst_find?_self hfind (by simp [hg])
  | none =>
    show (st.bills ++ [newBill]).find? (fun bill => bill.guest == guest) = some newBill
    have hfind : st.bills.find? (fun bill => bill.guest == guest) = none := hfb
    rw [List.find?_append, hfind]
    simp [List.find?_cons, hg]

theorem generateBill_stored {st : BillingService} {g : GuestOrders} {gb : GuestBill}
    {st' : BillingService} (h : generateBill st g = some (gb, st')) :
    findBillForGuest st' g.guest =
      some { bill := gb.bill, guest := g.guest,
             orders := addFoodOrderToBill g (billBase st g).1.orders, totalSum := gb.totalSum } ∧
      calculateTotalSum st.menu (addFoodOrderToBill g (billBase st g).1.orders) = some gb.totalSum ∧
      gb.orderedFood = ((addFoodOrderToBill g (billBase st g).1.orders).map fun o => o.food).flatten ∧
      gb.orderedDrinks = ((addFoodOrderToBill g (billBase st g).1.orders).map fun o => o.drinks).flatten ∧
      st'.menu = st.menu ∧ st'.guestOrders = st.guestOrders ∧
      st'.billIdCounter = (billBase st g).2 ∧
      gb.bill = (billBase st g).1.bill := by
  simp only [generateBill] at h
  cases hc : calculateTotalSum st.menu (addFoodOrderToBill g (billBase st g).1.orders) with
  | none => rw [hc] at h; exact absurd h (by simp)
  | some total =>
    rw [hc] at h
    simp only [Option.some.injEq, Prod.mk.injEq] at h
    obtain ⟨hgb, hst⟩ := h
    subst hgb
    subst hst
    refine ⟨?_, ?_, rfl, rfl, rfl, rfl, rfl, rfl⟩
    · show (storeBill st g.guest _).find? (fun bill => bill.guest == g.guest) = _
      refine (find?_storeBill ?_).trans ?_
      · exact billBase_guest st g
      · simp [billBase_guest st g]
    · rfl

/-! ### Claim C2 -/

/-- C2: after `generateBill` returns for a guest, the stored bill's `totalSum`
equals the sum, over every order line of that bill and every food and drink id
in it, of the price of the matching menu item (`specTotal`), recomputed from
zero on each call — `specTotal` depends only on the final order lines and the
menu, never on a previously stored total — and the returned view carries the
same total. The success hypothesis embodies the claim's precondition that the
menu is loaded and every id has a menu entry. -/
theorem generateBill_totalSum_conservation {st : BillingService} {g : GuestOrders}
    {gb : GuestBill} {st' : BillingService}
    (h : generateBill st g = some (gb, st')) :
    ∃ b', findBillForGuest st' g.guest = some b' ∧
      b'.totalSum = specTotal st.menu b'.orders ∧ gb.totalSum = b'.totalSum := by
  obtain ⟨hstored, hcalc, -, -, -, -, -, -⟩ := generateBill_stored h
  exact ⟨_, hstored, calculateTotalSum_some hcalc, rfl⟩

/-- Witness for C2 at the end-to-end scenario state. -/
theorem generateBill_totalSum_conservation_witness :
    ∃ b', findBillForGuest demoStB demoEntry.guest = some b' ∧
      b'.totalSum = specTotal demoStA.menu b'.orders ∧ demoGuestBill.totalSum = b'.totalSum :=
  generateBill_totalSum_conservation (by
    simp [generateBill, billBase, findBillForGuest, addFoodOrderToBill, addOneOrder,
      calculateTotalSum, addOrderPrices, sumIds, addPrice, updateFirst, demoStA, demoEntry,
      demoStB, demoGuestBill, st0, menu0, demoDelivery, registerDeliveredItems,
      addDeliveryToEntry, storeBill, List.find?]
    norm_num)

/-! ### Claim C1 -/

/-- C1: for an open bill `b` and the ledger entry `e` of `b`'s guest, a successful
`registerPayment` replaces `e`'s order lines by their settlements and prunes the
emptied ones; the settlement of a ledger line with a matching bill line is exact
multiset subtraction on the id lists — for every id, the remaining number of
occurrences is the previous count minus the billed count, so un-billed duplicate
ids survive — and every remaining line still holds some food or drink id. -/
theorem registerPayment_settles {st : BillingService} {billId : Nat} {b : Bill}
    {e : GuestOrders} {pb : PaidBill} {st' : BillingService}
    (hb : st.bills.find? (fun bill => bill.bill == billId) = some b)
    (he : st.guestOrders.find? (fun items => items.guest == b.guest) = some e)
    (hp : registerPayment st billId = some (pb, st')) :
    ∃ e', st'.guestOrders.find? (fun items => items.guest == b.guest) = some e' ∧
      e'.orders = (e.orders.map (settleLine b.orders)).filter
        (fun o => !o.food.isEmpty || !o.drinks.isEmpty) ∧
      (∀ ol ∈ e.orders, ∀ bo,
        b.orders.find? (fun billOrder => billOrder.order == ol.order) = some bo →
        (∀ id, (settleLine b.orders ol).food.count id = ol.food.count id - bo.food.count id) ∧
        (∀ id, (settleLine b.orders ol).drinks.count id = ol.drinks.count id - bo.drinks.count id)) ∧
      ∀ ol' ∈ e'.orders, ol'.food ≠ [] ∨ ol'.drinks ≠ [] := by
  unfold registerPayment at hp
  simp only [hb, he, Option.some.injEq, Prod.mk.injEq] at hp
  obtain ⟨-, hst⟩ := hp
  subst hst
  have hpe := List.find?_some he
  refine ⟨GuestOrders.mk e.guest ((e.orders.map (settleLine b.orders)).filter
      fun o => !o.food.isEmpty || !o.drinks.isEmpty), ?_, rfl, ?_, ?_⟩
  · exact updateFirst_find?_self he (by simpa using hpe)
  · intro ol hol bo hbo
    exact settleLine_counts hbo
  · intro ol' h'
    have hq := (List.mem_filter.mp h').2
    simpa [Bool.or_eq_true, List.isEmpty_iff] using hq

/-- Witness for C1: paying `c1Bill` in `c1State`; the un-billed duplicate food id
101 survives and the emptied drink list prunes nothing beyond the settled line. -/
theorem registerPayment_settles_witness :
    ∃ e', c1After.guestOrders.find? (fun items => items.guest == c1Bill.guest) = some e' ∧
      e'.orders = (c1Entry.orders.map (settleLine c1Bill.orders)).filter
        (fun o => !o.food.isEmpty || !o.drinks.isEmpty) ∧
      (∀ ol ∈ c1Entry.orders, ∀ bo,
        c1Bill.orders.find? (fun billOrder => billOrder.order == ol.order) = some bo →
        (∀ id, (settleLine c1Bill.orders ol).food.count id = ol.food.count id - bo.food.count id) ∧
        (∀ id, (settleLine c1Bill.orders ol).drinks.count id = ol.drinks.count id - bo.drinks.count id)) ∧
      ∀ ol' ∈ e'.orders, ol'.food ≠ [] ∨ ol'.drinks ≠ [] :=
  @registerPayment_settles c1State 1 c1Bill c1Entry c1Paid c1After
    (by decide) (by decide) (by decide)

/-! ### Claim C10 -/

/-- C10: `getPaymentOption` is pure and always includes `Cash`; below an amount
of 20 it returns exactly `[Cash]`, from 20 on exactly
`[Cash, DebitCard, CreditCard]` in that order; in particular at 19.99 and 20. -/
theorem getPaymentOption_policy :
    (∀ a : ℚ, PAYMENT_METHOD.Cash ∈ getPaymentOption a) ∧
    (∀ a : ℚ, a < 20 → getPaymentOption a = [PAYMENT_METHOD.Cash]) ∧
    (∀ a : ℚ, 20 ≤ a → getPaymentOption a =
      [PAYMENT_METHOD.Cash, PAYMENT_METHOD.DebitCard, PAYMENT_METHOD.CreditCard]) ∧
    getPaymentOption 19.99 = [PAYMENT_METHOD.Cash] ∧
    getPaymentOption 20 =
      [PAYMENT_METHOD.Cash, PAYMENT_METHOD.DebitCard, PAYMENT_METHOD.CreditCard] := by
  refine ⟨?_, ?_, ?_, ?_, ?_⟩
  · intro a
    unfold getPaymentOption
    split <;> simp
  · intro a ha
    simp [getPaymentOption, ha]
  · intro a ha
    simp [getPaymentOption, not_lt.mpr ha]
  · have h : (19.99 : ℚ) < 20 := by norm_num
    simp [getPaymentOption, h]
  · have h : ¬ ((20 : ℚ) < 20) := by norm_num
    simp [getPaymentOption, h]

/-- Witness for C10 on both sides of the boundary. -/
theorem getPaymentOption_policy_witness :
    ((39 / 2 : ℚ) < 20 ∧ getPaymentOption (39 / 2) = [PAYMENT_METHOD.Cash]) ∧
    ((20 : ℚ) ≤ 25 ∧ getPaymentOption 25 =
      [PAYMENT_METHOD.Cash, PAYMENT_METHOD.DebitCard, PAYMENT_METHOD.CreditCard]) :=
  ⟨⟨by norm_num, getPaymentOption_policy.2.1 (39 / 2) (by norm_num)⟩,
    ⟨by norm_num, getPaymentOption_policy.2.2.1 25 (by norm_num)⟩⟩

/-! ### Claim C4 (code bug): missing bill or missing guest entry crashes -/

/-- C4 evaluation: paying bill 1 in `demoStB` succeeds and deletes the bill; the
second payment of the same bill id, and a payment whose bill references a guest
with no ledger entry, both hit the source's unhandled missing-value access
(`bill.orders` on `undefined`, `guestOrders[-1].orders`), embedded as `none` —
no explicit `BillNotFound`/`GuestNotFound` failure value exists in the code. -/
theorem registerPayment_crashes_on_missing :
    registerPayment demoStB 1 = some (demoPaidBill, demoStC) ∧
    registerPayment demoStC 1 = none ∧
    registerPayment c4Orphan 1 = none := by
  refine ⟨?_, rfl, rfl⟩
  simp [registerPayment, paidOrdersOf, settleLine, removeBilledIds, spliceFirst, updateFirst,
    demoStB, demoEntry, demoStC, demoPaidBill, menu0, List.find?, List.eraseP]

/-! ### Claim C5 (code bug): unknown menu item crashes `generateBill` -/

/-- C5 evaluation: a ledger entry holding the unknown food id 999 makes
`generateBill` hit the source's unhandled missing-value access
(`menuFood.price` on `undefined`), embedded as `none` — no explicit
`UnknownMenuItem` failure value exists in the code. -/
theorem generateBill_crashes_on_unknown_item :
    generateBill st0 c5Entry = none := rfl

/-! ### Claim C8 (corrected): the retry backoff schedule -/

/-- C8 counterexample: the claim predicts identical six-wait cycles
`fib(1..5) seconds then 60 s` forever, but already the 8th consecutive failure
waits 2000 ms where the claim predicts 1000 ms. -/
theorem retryWaits_ne_claimWaits : retryWaits 8 ≠ claimWaits 8 := by decide

/-- C8 amended: the first cycle performs 5 short retries waiting
`fib(1)..fib(5)` seconds followed by the 60 s cooldown; because the source
decrements the counter immediately after resetting it, every later cycle
performs only 4 short retries, waiting `fib(2)..fib(5)` seconds, before the
next 60 s cooldown. -/
theorem retryWaits_schedule (k : Nat) :
    retryWaits (5 * k + 6) =
      [1000, 1000, 2000, 3000, 5000, 60000] ++
        (List.replicate k [1000, 2000, 3000, 5000, 60000]).flatten := by
  have hcycle : ∀ m, retryWaitsAux (m + 5) 4 =
      1000 :: 2000 :: 3000 :: 5000 :: 60000 :: retryWaitsAux m 4 := fun _ => rfl
  have hfirst : ∀ m, retryWaitsAux (m + 6) 5 =
      1000 :: 1000 :: 2000 :: 3000 :: 5000 :: 60000 :: retryWaitsAux m 4 := fun _ => rfl
  have haux : ∀ n, retryWaitsAux (5 * n) 4 =
      (List.replicate n [1000, 2000, 3000, 5000, 60000]).flatten := by
    intro n
    induction n with
    | zero => rfl
    | succ m ih =>
      have h5 : 5 * (m + 1) = 5 * m + 5 := by ring
      rw [h5, hcycle (5 * m), ih]
      simp [List.replicate_succ]
  show retryWaitsAux (5 * k + 6) 5 = _
  rw [hfirst (5 * k), haux k]
  rfl

/-- Witness for the amended C8 schedule at two full later cycles. -/
theorem retryWaits_schedule_witness :
    retryWaits 16 = [1000, 1000, 2000, 3000, 5000, 60000] ++
      (List.replicate 2 [1000, 2000, 3000, 5000, 60000]).flatten :=
  retryWaits_schedule 2

/-! ### Claim C6 -/

theorem addDeliveryToEntry_guest (reg : ItemRegistration) (gd : GuestOrders) :
    (addDeliveryToEntry reg gd).guest = gd.guest := by
  unfold addDeliveryToEntry
  cases gd.orders.find? fun o => o.order == reg.order <;> rfl

/-- C6: `registerDeliveredItems` by cases — a new guest gets a fresh ledger entry
with the single delivered order line; an existing guest without the order id
gets the line appended; an existing order line gets the delivered food and
drink ids appended without replacement or deduplication; in particular
delivering food `[101]` twice for guest 2, order 5 leaves food `[101, 101]`. -/
theorem registerDeliveredItems_cases (st : BillingService) (reg : ItemRegistration) :
    (st.guestOrders.find? (fun items => items.guest == reg.guest) = none →
      (registerDeliveredItems st reg).guestOrders = st.guestOrders ++
        [{ guest := reg.guest,
           orders := [{ order := reg.order, food := reg.food, drinks := reg.drinks }] }]) ∧
    (∀ gd, st.guestOrders.find? (fun items => items.guest == reg.guest) = some gd →
      gd.orders.find? (fun o => o.order == reg.order) = none →
      (registerDeliveredItems st reg).guestOrders.find?
          (fun items => items.guest == reg.guest) =
        some { gd with
          orders := gd.orders ++ [{ order := reg.order, food := reg.food, drinks := reg.drinks }] }) ∧
    (∀ gd go, st.guestOrders.find? (fun items => items.guest == reg.guest) = some gd →
      gd.orders.find? (fun o => o.order == reg.order) = some go →
      ∃ gd', (registerDeliveredItems st reg).guestOrders.find?
          (fun items => items.guest == reg.guest) = some gd' ∧
        gd'.orders.find? (fun o => o.order == reg.order) =
          some { order := go.order, food := go.food ++ reg.food,
                 drinks := go.drinks ++ reg.drinks }) ∧
    (registerDeliveredItems (registerDeliveredItems st0 c6Reg) c6Reg).guestOrders =
      [{ guest := 2, orders := [{ order := 5, food := [101, 101], drinks := [] }] }] := by
  refine ⟨?_, ?_, ?_, by decide⟩
  · intro h
    simp [registerDeliveredItems, h]
  · intro gd hgd hnone
    have hpgd := List.find?_some hgd
    have h1 : (registerDeliveredItems st reg).guestOrders =
        updateFirst (fun items => items.guest == reg.guest) (addDeliveryToEntry reg)
          st.guestOrders := by
      simp [registerDeliveredItems, hgd]
    rw [h1, updateFirst_find?_self hgd (by simpa [addDeliveryToEntry_guest] using hpgd)]
    simp [addDeliveryToEntry, hnone]
  · intro gd go hgd hsome
    have hpgd := List.find?_some hgd
    have hpgo := List.find?_some hsome
    have h1 : (registerDeliveredItems st reg).guestOrders =
        updateFirst (fun items => items.guest == reg.guest) (addDeliveryToEntry reg)
          st.guestOrders := by
      simp [registerDeliveredItems, hgd]
    refine ⟨addDeliveryToEntry reg gd,
      by rw [h1, updateFirst_find?_self hgd (by simpa [addDeliveryToEntry_guest] using hpgd)], ?_⟩
    have h2 : (addDeliveryToEntry reg gd).orders =
        updateFirst (fun o => o.order == reg.order)
          (fun o => { o with food := o.food ++ reg.food, drinks := o.drinks ++ reg.drinks })
          gd.orders := by
      simp [addDeliveryToEntry, hsome]
    rw [h2, updateFirst_find?_self hsome (by simpa using hpgo)]

/-- Witness for C6 at the re-delivery merge scenario. -/
theorem registerDeliveredItems_cases_witness :
    ∃ gd', (registerDeliveredItems c6State c6Reg).guestOrders.find?
        (fun items => items.guest == c6Reg.guest) = some gd' ∧
      gd'.orders.find? (fun o => o.order == c6Reg.order) =
        some { order := 5, food := [101, 101], drinks := [] } :=
  (registerDeliveredItems_cases c6State c6Reg).2.2.1 ⟨2, [⟨5, [101], []⟩]⟩ ⟨5, [101], []⟩
    (by decide) (by decide)

/-! ### Claim C7 -/

theorem generateBill_bills {st : BillingService} {g : GuestOrders} {gb : GuestBill}
    {st' : BillingService} (h : generateBill st g = some (gb, st')) :
    ∃ newBill, newBill.guest = g.guest ∧ st'.bills = storeBill st g.guest newBill := by
  simp only [generateBill] at h
  cases hc : calculateTotalSum st.menu (addFoodOrderToBill g (billBase st g).1.orders) with
  | none => rw [hc] at h; exact absurd h (by simp)
  | some total =>
    rw [hc] at h
    simp only [Option.some.injEq, Prod.mk.injEq] at h
    obtain ⟨-, hst⟩ := h
    subst hst
    exact ⟨{ bill := (billBase st g).1.bill, guest := (billBase st g).1.guest,
             orders := addFoodOrderToBill g (billBase st g).1.orders, totalSum := total },
      billBase_guest st g, rfl⟩

theorem storeBill_nodup {st : BillingService} {guest : Nat} {newBill : Bill}
    (hg : newBill.guest = guest) (h : (st.bills.map fun b => b.guest).Nodup) :
    ((storeBill st guest newBill).map fun b => b.guest).Nodup := by
  unfold storeBill
  cases hfb : findBillForGuest st guest with
  | some b =>
    show ((updateFirst (fun bill => bill.guest == guest) (fun _ => newBill) st.bills).map
      fun b => b.guest).Nodup
    rw [updateFirst_map (fun x hx => by
      have : x.guest = guest := by simpa using hx
      simp [hg, this])]
    exact h
  | none =>
    show ((st.bills ++ [newBill]).map fun b => b.guest).Nodup
    have hfind : st.bills.find? (fun bill => bill.guest == guest) = none := hfb
    rw [List.map_append]
    refine List.nodup_append.mpr ⟨h, by simp, ?_⟩
    simp only [List.map_cons, List.map_nil, List.disjoint_singleton, hg]
    intro hmem
    obtain ⟨b, hb, hbg⟩ := List.mem_map.mp hmem
    exact absurd hbg (by simpa using List.find?_eq_none.mp hfind b hb)

theorem registerPayment_shape {st : BillingService} {billId : Nat} {pb : PaidBill}
    {st' : BillingService} (hp : registerPayment st billId = some (pb, st')) :
    ∃ b, st.bills.find? (fun bill => bill.bill == billId) = some b ∧
      st'.bills = st.bills.eraseP (fun bill => bill.bill == billId) ∧
      st'.guestOrders = updateFirst (fun items => items.guest == b.guest)
        (fun gd => { gd with orders := ((gd.orders.map (settleLine b.orders)).filter
            fun o => !o.food.isEmpty || !o.drinks.isEmpty) }) st.guestOrders ∧
      st'.menu = st.menu ∧ st'.billIdCounter = st.billIdCounter := by
  unfold registerPayment at hp
  cases hb : st.bills.find? fun bill => bill.bill == billId with
  | none => rw [hb] at hp; exact absurd hp (by simp)
  | some b =>
    rw [hb] at hp
    cases he : st.guestOrders.find? fun items => items.guest == b.guest with
    | none =>
      simp only [he] at hp
      exact absurd hp (by simp)
    | some e =>
      simp only [he, Option.some.injEq, Prod.mk.injEq] at hp
      obtain ⟨-, hst⟩ := hp
      subst hst
      exact ⟨b, rfl, rfl, rfl, rfl, rfl⟩

theorem addDeliveryToEntry_nodup {reg : ItemRegistration} {gd : GuestOrders}
    (h : (gd.orders.map fun o => o.order).Nodup) :
    ((addDeliveryToEntry reg gd).orders.map fun o => o.order).Nodup := by
  unfold addDeliveryToEntry
  cases hf : gd.orders.find? fun o => o.order == reg.order with
  | some _ =>
    show ((updateFirst (fun o => o.order == reg.order)
      (fun o => { o with food := o.food ++ reg.food, drinks := o.drinks ++ reg.drinks })
      gd.orders).map fun o => o.order).Nodup
    have hmap : (updateFirst (fun o => o.order == reg.order)
        (fun o => { o with food := o.food ++ reg.food, drinks := o.drinks ++ reg.drinks })
        gd.orders).map (fun o => o.order) = gd.orders.map fun o => o.order :=
      updateFirst_map fun x _ => rfl
    rw [hmap]
    exact h
  | none =>
    show ((gd.orders ++ [({ order := reg.order, food := reg.food, drinks := reg.drinks } : OrderLine)]).map
      fun o => o.order).Nodup
    rw [List.map_append]
    refine List.nodup_append.mpr ⟨h, by simp, ?_⟩
    simp only [List.map_cons, List.map_nil, List.disjoint_singleton]
    intro hmem
    obtain ⟨o, ho, hoo⟩ := List.mem_map.mp hmem
    exact absurd hoo (by simpa using List.find?_eq_none.mp hf o ho)

/-- C7: every operation preserves the state invariant — at most one ledger entry
per guest id, at most one order line per order id within a ledger entry, and at
most one open bill per guest id (for `generateBill` and `registerPayment`, on
every run that does not crash). -/
theorem operations_preserve_invariant {st : BillingService} (hInv : InvBilling st) :
    (∀ reg, InvBilling (registerDeliveredItems st reg)) ∧
    (∀ g gb st', generateBill st g = some (gb, st') → InvBilling st') ∧
    (∀ billId pb st', registerPayment st billId = some (pb, st') → InvBilling st') := by
  obtain ⟨hguests, hentries, hbills⟩ := hInv
  refine ⟨?_, ?_, ?_⟩
  · intro reg
    unfold registerDeliveredItems
    cases hf : st.guestOrders.find? fun items => items.guest == reg.guest with
    | some gd =>
      refine ⟨?_, ?_, hbills⟩
      · show ((updateFirst (fun items => items.guest == reg.guest) (addDeliveryToEntry reg)
          st.guestOrders).map fun e => e.guest).Nodup
        rw [updateFirst_map fun x _ => addDeliveryToEntry_guest reg x]
        exact hguests
      · intro e hmem
        rcases mem_updateFirst hmem with h | ⟨b2, hb2, -, rfl⟩
        · exact hentries e h
        · exact addDeliveryToEntry_nodup (hentries b2 hb2)
    | none =>
      refine ⟨?_, ?_, hbills⟩
      · show ((st.guestOrders ++
          [({ guest := reg.guest,
              orders := [{ order := reg.order, food := reg.food, drinks := reg.drinks }] } :
            GuestOrders)]).map fun e => e.guest).Nodup
        rw [List.map_append]
        refine List.nodup_append.mpr ⟨hguests, by simp, ?_⟩
        simp only [List.map_cons, List.map_nil, List.disjoint_singleton]
        intro hmem
        obtain ⟨e, he2, heg⟩ := List.mem_map.mp hmem
        exact absurd heg (by simpa using List.find?_eq_none.mp hf e he2)
      · intro e hmem
        rcases List.mem_append.mp hmem with h | h
        · exact hentries e h
        · rcases List.mem_singleton.mp h with rfl
          simp
  · intro g gb st' h
    obtain ⟨newBill, hng, hbl⟩ := generateBill_bills h
    obtain ⟨-, -, -, -, -, hgo, -, -⟩ := generateBill_stored h
    refine ⟨?_, ?_, ?_⟩
    · rw [hgo]; exact hguests
    · rw [hgo]; exact hentries
    · rw [hbl]; exact storeBill_nodup hng hbills
  · intro billId pb st' hp
    obtain ⟨b, -, hbl, hgo, -, -⟩ := registerPayment_shape hp
    refine ⟨?_, ?_, ?_⟩
    · rw [hgo]
      have hmap : (updateFirst (fun items => items.guest == b.guest)
          (fun gd => { gd with orders := ((gd.orders.map (settleLine b.orders)).filter
              fun o => !o.food.isEmpty || !o.drinks.isEmpty) }) st.guestOrders).map
            (fun e => e.guest) = st.guestOrders.map fun e => e.guest :=
        updateFirst_map fun x _ => rfl
      rw [hmap]
      exact hguests
    · intro e hmem
      rw [hgo] at hmem
      rcases mem_updateFirst hmem with h | ⟨b2, hb2, -, rfl⟩
      · exact hentries e h
      · have hids : (b2.orders.map (settleLine b.orders)).map (fun o => o.order) =
            b2.orders.map fun o => o.order := by
          rw [List.map_map]
          exact List.map_congr_left fun o _ => settleLine_order b.orders o
        refine List.Nodup.sublist ?_ (hids ▸ hentries b2 hb2)
        exact List.Sublist.map _ (List.filter_sublist _)
    · rw [hbl]
      exact List.Nodup.sublist (List.Sublist.map _ (List.eraseP_sublist _)) hbills

/-- Witness for C7: the invariant holds in the fresh state and is preserved by
registering the scenario delivery there. -/
theorem operations_preserve_invariant_witness :
    InvBilling st0 ∧ InvBilling (registerDeliveredItems st0 demoDelivery) :=
  ⟨⟨by simp [st0], by simp [st0], by simp [st0]⟩,
    (operations_preserve_invariant ⟨by simp [st0], by simp [st0], by simp [st0]⟩).1 demoDelivery⟩

/-! ### Lemmas about `addOneOrder` and `addFoodOrderToBill` -/

theorem addOneOrder_find?_other {acc : List OrderLine} {o : OrderLine} {k : Nat}
    (hk : k ≠ o.order) :
    (addOneOrder acc o).find? (fun x => x.order == k) =
      acc.find? (fun x => x.order == k) := by
  unfold addOneOrder
  cases hf : acc.find? fun billOrder => billOrder.order == o.order with
  | some x =>
    show ((updateFirst (fun billOrder => billOrder.order == o.order)
        (fun billOrder => { billOrder with food := o.food, drinks := o.drinks }) acc).find?
      fun x => x.order == k) = _
    apply updateFirst_find?_other
    · intro y hy
      have hy' : y.order = o.order := by simpa using hy
      simp only [beq_eq_false_iff_ne, hy']
      exact fun h => hk h.symm
    · intro y
      rfl
  | none =>
    show ((acc ++ [({ order := o.order, food := o.food, drinks := o.drinks } : OrderLine)]).find?
      fun x => x.order == k) = _
    rw [List.find?_append]
    have hko : (({ order := o.order, food := o.food, drinks := o.drinks } : OrderLine).order
        == k) = false := by
      simp only [beq_eq_false_iff_ne]
      exact fun h => hk h.symm
    simp [List.find?_cons, hko]

theorem addOneOrder_find?_self (acc : List OrderLine) (o : OrderLine) :
    (addOneOrder acc o).find? (fun x => x.order == o.order) =
      some { order := o.order, food := o.food, drinks := o.drinks } := by
  unfold addOneOrder
  cases hf : acc.find? fun billOrder => billOrder.order == o.order with
  | some x =>
    have hx : x.order = o.order := by simpa using List.find?_some hf
    show ((updateFirst (fun billOrder => billOrder.order == o.order)
        (fun billOrder => { billOrder with food := o.food, drinks := o.drinks }) acc).find?
      fun y => y.order == o.order) = _
    rw [updateFirst_find?_self hf (by simp [hx])]
    simp [hx]
  | none =>
    show ((acc ++ [({ order := o.order, food := o.food, drinks := o.drinks } : OrderLine)]).find?
      fun y => y.order == o.order) = _
    rw [List.find?_append, hf]
    simp [List.find?_cons]

theorem foldl_addOneOrder_find?_notin {l acc : List OrderLine} {k : Nat}
    (hk : ∀ o ∈ l, o.order ≠ k) :
    (l.foldl addOneOrder acc).find? (fun x => x.order == k) =
      acc.find? (fun x => x.order == k) := by
  induction l generalizing acc with
  | nil => rfl
  | cons o os ih =>
    rw [List.foldl_cons]
    rw [ih fun o' ho' => hk o' (List.mem_cons_of_mem _ ho')]
    exact addOneOrder_find?_other (hk o (List.mem_cons_self o os)).symm

theorem addOneOrder_self {acc : List OrderLine} {o : OrderLine}
    (h : acc.find? (fun x => x.order == o.order) =
      some { order := o.order, food := o.food, drinks := o.drinks }) :
    addOneOrder acc o = acc := by
  unfold addOneOrder
  rw [h]
  exact updateFirst_eq_self h rfl

theorem foldl_addOneOrder_idem {l : List OrderLine}
    (hnd : (l.map fun o => o.order).Nodup) (acc : List OrderLine) :
    l.foldl addOneOrder (l.foldl addOneOrder acc) = l.foldl addOneOrder acc := by
  induction l generalizing acc with
  | nil => rfl
  | cons o os ih =>
    have hnotin : ∀ o' ∈ os, o'.order ≠ o.order := by
      intro o' ho' heq
      refine (List.nodup_cons.mp hnd).1 ?_
      show o.order ∈ List.map (fun o => o.order) os
      rw [← heq]
      exact List.mem_map_of_mem (fun o => o.order) ho'
    rw [List.foldl_cons, List.foldl_cons]
    have hfind : (os.foldl addOneOrder (addOneOrder acc o)).find?
        (fun x => x.order == o.order) =
        some { order := o.order, food := o.food, drinks := o.drinks } := by
      rw [foldl_addOneOrder_find?_notin hnotin]
      exact addOneOrder_find?_self acc o
    rw [addOneOrder_self hfind]
    exact ih (List.nodup_cons.mp hnd).2 (addOneOrder acc o)

theorem mem_foldl_addOneOrder {l acc : List OrderLine} {ol : OrderLine}
    (hol : ol ∈ acc) (hno : ∀ o ∈ l, o.order ≠ ol.order) :
    ol ∈ l.foldl addOneOrder acc := by
  induction l generalizing acc with
  | nil => exact hol
  | cons o os ih =>
    rw [List.foldl_cons]
    refine ih ?_ fun o' ho' => hno o' (List.mem_cons_of_mem _ ho')
    unfold addOneOrder
    cases hf : acc.find? fun billOrder => billOrder.order == o.order with
    | some _ =>
      exact mem_updateFirst_of_neg hol (by
        simp only [beq_eq_false_iff_ne]
        exact (hno o (List.mem_cons_self o os)).symm)
    | none => exact List.mem_append_left _ hol

theorem orderIds_extend (l : List OrderLine) : ∀ acc,
    ∃ t, ((l.foldl addOneOrder acc).map fun o => o.order) =
      (acc.map fun o => o.order) ++ t := by
  induction l with
  | nil => exact fun acc => ⟨[], by simp⟩
  | cons o os ih =>
    intro acc
    rw [List.foldl_cons]
    obtain ⟨t, ht⟩ := ih (addOneOrder acc o)
    cases hf : acc.find? fun billOrder => billOrder.order == o.order with
    | some x =>
      have hmap : (addOneOrder acc o).map (fun o => o.order) = acc.map fun o => o.order := by
        unfold addOneOrder
        rw [hf]
        exact updateFirst_map fun y _ => rfl
      exact ⟨t, by rw [ht, hmap]⟩
    | none =>
      have hmap : (addOneOrder acc o).map (fun o => o.order) =
          (acc.map fun o => o.order) ++ [o.order] := by
        unfold addOneOrder
        rw [hf]
        simp
      refine ⟨o.order :: t, ?_⟩
      rw [ht, hmap, List.append_assoc]
      rfl

/-! ### Claim C3 -/

/-- C3: calling `generateBill` twice in succession on the same ledger entry, with
no intervening `registerDeliveredItems` or `registerPayment`, succeeds again and
returns a `GuestBill` with the same bill id, equal `totalSum`, and equal
flattened `orderedFood` and `orderedDrinks` lists. The `Nodup` hypothesis is
the data-model invariant that a ledger entry has at most one line per order id. -/
theorem generateBill_idempotent {st : BillingService} {g : GuestOrders} {gb1 : GuestBill}
    {st1 : BillingService} (hnd : (g.orders.map fun o => o.order).Nodup)
    (h1 : generateBill st g = some (gb1, st1)) :
    ∃ gb2 st2, generateBill st1 g = some (gb2, st2) ∧
      gb2.bill = gb1.bill ∧ gb2.totalSum = gb1.totalSum ∧
      gb2.orderedFood = gb1.orderedFood ∧ gb2.orderedDrinks = gb1.orderedDrinks := by
  obtain ⟨hstored, hcalc, hfood, hdrinks, hmenu, -, -, -⟩ := generateBill_stored h1
  have hbase2 : (billBase st1 g).1 =
      { bill := gb1.bill, guest := g.guest,
        orders := addFoodOrderToBill g (billBase st g).1.orders, totalSum := 0 } := by
    simp [billBase, hstored]
  have hords : addFoodOrderToBill g (billBase st1 g).1.orders =
      addFoodOrderToBill g (billBase st g).1.orders := by
    rw [hbase2]
    exact foldl_addOneOrder_idem hnd _
  have h2 : generateBill st1 g =
      some ( { bill := (billBase st1 g).1.bill
               orderedFood := ((addFoodOrderToBill g (billBase st g).1.orders).map
                 fun o => o.food).flatten
               orderedDrinks := ((addFoodOrderToBill g (billBase st g).1.orders).map
                 fun o => o.drinks).flatten
               totalSum := gb1.totalSum },
             { st1 with
               bills := storeBill st1 g.guest
                 { bill := (billBase st1 g).1.bill
                   guest := (billBase st1 g).1.guest
                   orders := addFoodOrderToBill g (billBase st g).1.orders
                   totalSum := gb1.totalSum }
               billIdCounter := (billBase st1 g).2 } ) := by
    simp only [generateBill, hords, hmenu, hcalc]
  refine ⟨_, _, h2, ?_, rfl, hfood.symm, hdrinks.symm⟩
  rw [hbase2]

/-- Witness for C3: regenerating the scenario bill from `demoStB`. -/
theorem generateBill_idempotent_witness :
    ∃ gb2 st2, generateBill demoStB demoEntry = some (gb2, st2) ∧
      gb2.bill = demoGuestBill.bill ∧ gb2.totalSum = demoGuestBill.totalSum ∧
      gb2.orderedFood = demoGuestBill.orderedFood ∧
      gb2.orderedDrinks = demoGuestBill.orderedDrinks :=
  @generateBill_idempotent demoStA demoEntry demoGuestBill demoStB (by decide) (by
    simp [generateBill, billBase, findBillForGuest, addFoodOrderToBill, addOneOrder,
      calculateTotalSum, addOrderPrices, sumIds, addPrice, updateFirst, demoStA, demoEntry,
      demoStB, demoGuestBill, st0, menu0, demoDelivery, registerDeliveredItems,
      addDeliveryToEntry, storeBill, List.find?]
    norm_num)

/-! ### Claim C9 -/

/-- C9: when a guest has an open bill, `generateBill` regenerates from that
bill's order lines, never deleting one: a line `ol` whose order id is absent
from the supplied ledger entry survives unchanged into the stored regenerated
bill (which keeps the bill id), the original lines' order ids are a prefix of
the new ones, the new total is computed over the order lines including `ol`,
and `ol`'s food ids appear in the returned flattened food list. -/
theorem generateBill_keeps_stale_lines {st : BillingService} {g : GuestOrders} {b : Bill}
    {ol : OrderLine} {gb : GuestBill} {st' : BillingService}
    (hfb : findBillForGuest st g.guest = some b)
    (hol : ol ∈ b.orders)
    (hno : ∀ o ∈ g.orders, o.order ≠ ol.order)
    (h : generateBill st g = some (gb, st')) :
    ∃ b', findBillForGuest st' g.guest = some b' ∧ b'.bill = b.bill ∧
      ol ∈ b'.orders ∧
      (∃ t, (b'.orders.map fun o => o.order) = (b.orders.map fun o => o.order) ++ t) ∧
      calculateTotalSum st.menu b'.orders = some gb.totalSum ∧
      ∀ id ∈ ol.food, id ∈ gb.orderedFood := by
  obtain ⟨hstored, hcalc, hfood, -, -, -, -, hgbb⟩ := generateBill_stored h
  have hbase : (billBase st g).1.orders = b.orders := by
    simp [billBase, hfb]
  have hbill : (billBase st g).1.bill = b.bill := by
    simp [billBase, hfb]
  have hmem : ol ∈ addFoodOrderToBill g (billBase st g).1.orders := by
    rw [show (billBase st g).1.orders = b.orders from hbase]
    exact mem_foldl_addOneOrder hol hno
  refine ⟨_, hstored, hgbb.trans hbill, hmem, ?_, hcalc, ?_⟩
  · rw [show (b.orders.map fun o => o.order) =
        ((billBase st g).1.orders.map fun o => o.order) by rw [hbase]]
    exact orderIds_extend g.orders (billBase st g).1.orders
  · intro id hid
    rw [hfood]
    exact List.mem_flatten.mpr ⟨ol.food, List.mem_map_of_mem (fun o => o.food) hmem, hid⟩

/-- Witness for C9: regenerating guest 1's bill from `c9State`, whose open bill
holds the stale order line 9 absent from `c9Entry`. -/
theorem generateBill_keeps_stale_lines_witness :
    ∃ b', findBillForGuest c9After c9Entry.guest = some b' ∧ b'.bill = c9Bill.bill ∧
      ({ order := 9, food := [101], drinks := [] } : OrderLine) ∈ b'.orders ∧
      (∃ t, (b'.orders.map fun o => o.order) = (c9Bill.orders.map fun o => o.order) ++ t) ∧
      calculateTotalSum c9State.menu b'.orders = some c9GuestBill.totalSum ∧
      ∀ id ∈ ({ order := 9, food := [101], drinks := [] } : OrderLine).food,
        id ∈ c9GuestBill.orderedFood :=
  @generateBill_keeps_stale_lines c9State c9Entry c9Bill ⟨9, [101], []⟩ c9GuestBill c9After
    (by decide) (by decide) (by decide) (by
      simp [generateBill, billBase, findBillForGuest, addFoodOrderToBill, addOneOrder,
        calculateTotalSum, addOrderPrices, sumIds, addPrice, updateFirst, c9State, c9Entry,
        c9Bill, c9GuestBill, c9After, c9Regenerated, menu0, storeBill, List.find?]
      norm_num)

end Billing
